/-
Verification of the article-tracker core against its natural-language
specification.  The Python modules under src/bot are shallowly embedded:
the PostgreSQL state touched by db.py becomes an explicit `LedgerState`
record threaded through pure functions, calendar dates become day numbers
in ℤ, NUMERIC money values become ℚ, and network effects (HTTP fetches,
webhook posts) become explicit inputs describing the responses the
external world returns.
-/
import Mathlib

namespace Db

/-- One row of the `articles` table (db.py CREATE_TABLES): url UNIQUE,
title, published_at (nullable), detection date (the calendar date of
`detected_at` in the configured timezone, as a day number), earning. -/
structure ArticleRow where
  url : String
  title : String
  published_at : Option String
  detected_date : ℤ
  earning : ℚ
deriving Repr, DecidableEq

/-- One row of the `daily_stats` table: date PRIMARY KEY, article_count,
earned. -/
structure DailyRow where
  date : ℤ
  article_count : ℕ
  earned : ℚ
deriving Repr, DecidableEq

/-- The durable state owned by db.py: the `articles` table, the
`daily_stats` table, and the singleton `streak_info` row. -/
structure LedgerState where
  articles : List ArticleRow
  daily_stats : List DailyRow
  current_streak : ℤ
  last_publish_date : Option ℤ
deriving Repr, DecidableEq

/-- State after `init_db`: empty tables and the bootstrap
`streak_info` row `(1, 0, NULL)`. -/
def initState : LedgerState :=
  { articles := [], daily_stats := [], current_streak := 0, last_publish_date := none }

/-- db.is_known_url: `SELECT 1 FROM articles WHERE url = %s`. -/
def is_known_url (st : LedgerState) (url : String) : Bool :=
  st.articles.any (fun a => a.url == url)

/-- The `DO UPDATE SET article_count = article_count + 1, earned =
earned + earning` action of the daily_stats upsert, applied to the row
whose date matches. -/
def bump_daily (today : ℤ) (earning : ℚ) (r : DailyRow) : DailyRow :=
  if r.date == today then
    { r with article_count := r.article_count + 1, earned := r.earned + earning }
  else r

/-- The `INSERT INTO daily_stats ... ON CONFLICT (date) DO UPDATE` upsert
inside db.insert_article: if a row for `today` exists, add 1 to its
article_count and `earning` to its earned; otherwise create the row
`(today, 1, earning)`. -/
def upsert_daily (stats : List DailyRow) (today : ℤ) (earning : ℚ) : List DailyRow :=
  if stats.any (fun r => r.date == today) then
    stats.map (bump_daily today earning)
  else
    stats ++ [{ date := today, article_count := 1, earned := earning }]

/-- db.insert_article: `INSERT INTO articles ... ON CONFLICT (url) DO
NOTHING` (the articles row is appended only when the url is unseen),
followed unconditionally by the daily_stats upsert.  `today` is
`datetime.now(tz).date()` computed at the top of the function.  The
Python function returns None (no inserted flag). -/
def insert_article (st : LedgerState) (url title : String) (published_at : Option String)
    (earning : ℚ) (today : ℤ) : LedgerState :=
  let arts :=
    if is_known_url st url then st.articles
    else st.articles ++ [{ url := url, title := title, published_at := published_at,
                           detected_date := today, earning := earning }]
  { st with articles := arts, daily_stats := upsert_daily st.daily_stats today earning }

/-- db.get_today_count: `SELECT article_count FROM daily_stats WHERE
date = today`, 0 when no row. -/
def get_today_count (st : LedgerState) (today : ℤ) : ℕ :=
  match st.daily_stats.find? (fun r => r.date == today) with
  | some r => r.article_count
  | none => 0

/-- db.get_today_earned: `SELECT earned FROM daily_stats WHERE
date = today`, 0.0 when no row. -/
def get_today_earned (st : LedgerState) (today : ℤ) : ℚ :=
  match st.daily_stats.find? (fun r => r.date == today) with
  | some r => r.earned
  | none => 0

/-- `SUM(article_count) WHERE date >= m` over a daily_stats table. -/
def sumCountFrom (stats : List DailyRow) (m : ℤ) : ℕ :=
  ((stats.filter (fun r => decide (m ≤ r.date))).map (fun r => r.article_count)).sum

/-- `SUM(earned) WHERE date >= m` over a daily_stats table. -/
def sumEarnedFrom (stats : List DailyRow) (m : ℤ) : ℚ :=
  ((stats.filter (fun r => decide (m ≤ r.date))).map (fun r => r.earned)).sum

/-- db.get_monthly_count: `SELECT COALESCE(SUM(article_count), 0) FROM
daily_stats WHERE date >= first_of_month`.  The first-of-month date
(`now.replace(day=1).date()`, a datetime-library computation) is taken
as the parameter `firstOfMonth`. -/
def get_monthly_count (st : LedgerState) (firstOfMonth : ℤ) : ℕ :=
  sumCountFrom st.daily_stats firstOfMonth

/-- db.get_monthly_earned: `SELECT COALESCE(SUM(earned), 0) FROM
daily_stats WHERE date >= first_of_month`. -/
def get_monthly_earned (st : LedgerState) (firstOfMonth : ℤ) : ℚ :=
  sumEarnedFrom st.daily_stats firstOfMonth

/-- db.get_total_earned: `SELECT COALESCE(SUM(earning), 0) FROM articles`. -/
def get_total_earned (st : LedgerState) : ℚ :=
  (st.articles.map (fun a => a.earning)).sum

/-- db.get_total_articles: `SELECT COUNT(*) FROM articles`. -/
def get_total_articles (st : LedgerState) : ℕ :=
  st.articles.length

/-- db.get_streak: read the singleton streak_info row. -/
def get_streak (st : LedgerState) : ℤ × Option ℤ :=
  (st.current_streak, st.last_publish_date)

/-- db.update_streak: `UPDATE streak_info SET current_streak = %s,
last_publish_date = %s WHERE id = 1`. -/
def update_streak (st : LedgerState) (streak : ℤ) (last_publish_date : ℤ) : LedgerState :=
  { st with current_streak := streak, last_publish_date := some last_publish_date }

end Db

namespace Streak

/-- streak.update_streak(tz): reads (current_streak, last_publish) via
db.get_streak, computes the new streak from the day gap
`(today - last_publish).days`, writes it back with today's date via
db.update_streak, and returns the new streak.  `today` is
`datetime.now(tz).date()` as a day number. -/
def update_streak (st : Db.LedgerState) (today : ℤ) : ℤ × Db.LedgerState :=
  let cs := Db.get_streak st
  let current_streak := cs.1
  let new_streak :=
    match cs.2 with
    | none => 1
    | some last_publish =>
      let delta := today - last_publish
      if delta = 0 then
        if current_streak > 0 then current_streak else 1
      else if delta = 1 then
        current_streak + 1
      else
        1
  (new_streak, Db.update_streak st new_streak today)

end Streak

/-- A single ledger mutation: db.insert_article or the streak read-
modify-write performed by streak.update_streak.  (The remaining db.py
functions are read-only accessors.) -/
inductive LedgerOp where
  | insert (url title : String) (published_at : Option String) (earning : ℚ) (today : ℤ)
  | streakUpd (today : ℤ)
deriving Repr, DecidableEq

/-- Apply one ledger operation to the state. -/
def applyOp (st : Db.LedgerState) : LedgerOp → Db.LedgerState
  | LedgerOp.insert url title published_at earning today =>
      Db.insert_article st url title published_at earning today
  | LedgerOp.streakUpd today => (Streak.update_streak st today).2

/-- Apply a sequence of ledger operations from left to right. -/
def applyOps (st : Db.LedgerState) (ops : List LedgerOp) : Db.LedgerState :=
  ops.foldl applyOp st

/-- The guard poll_cycle enforces before every insert (bot.py line 114):
`db.is_known_url(article.url)` is checked and known urls are skipped, so
insert_article is only ever invoked on unseen urls. -/
def guardedOps (st : Db.LedgerState) : List LedgerOp → Bool
  | [] => true
  | LedgerOp.insert url title published_at earning today :: rest =>
      !(Db.is_known_url st url) &&
        guardedOps (applyOp st (LedgerOp.insert url title published_at earning today)) rest
  | LedgerOp.streakUpd today :: rest =>
      guardedOps (applyOp st (LedgerOp.streakUpd today)) rest

/-- Number of article records whose detection date is the given day. -/
def countOn (arts : List Db.ArticleRow) (d : ℤ) : ℕ :=
  (arts.filter (fun a => a.detected_date == d)).length

/-- Sum of earning over article records whose detection date is the
given day. -/
def earnedOn (arts : List Db.ArticleRow) (d : ℤ) : ℚ :=
  ((arts.filter (fun a => a.detected_date == d)).map (fun a => a.earning)).sum

/-- Number of article records detected on or after the given day. -/
def countFrom (arts : List Db.ArticleRow) (m : ℤ) : ℕ :=
  (arts.filter (fun a => decide (m ≤ a.detected_date))).length

/-- Sum of earning over article records detected on or after the given
day. -/
def earnedFrom (arts : List Db.ArticleRow) (m : ℤ) : ℚ :=
  ((arts.filter (fun a => decide (m ≤ a.detected_date))).map (fun a => a.earning)).sum

/-- Every daily_stats row matches the count and earning sum of the
articles detected on its date. -/
def rowsConsistent (st : Db.LedgerState) : Bool :=
  st.daily_stats.all (fun r =>
    decide (r.article_count = countOn st.articles r.date) &&
    decide (r.earned = earnedOn st.articles r.date))

namespace Sitemap

/-- The raw text content of one `<url>` element as read by the four
`findtext` calls in parse_sitemap (each defaulting to ""). -/
structure UrlEntry where
  loc : String
  title : String
  pub_date : String
  keywords_str : String
deriving Repr, DecidableEq

/-- The Article dataclass of sitemap_parser.py. -/
structure Article where
  url : String
  title : String
  publication_date : String
  keywords : List String
deriving Repr, DecidableEq

/-- A fetched document body: either text that lxml rejects with
XMLSyntaxError, or a well-formed sitemap whose `<url>` elements carry
the given raw fields. -/
inductive XmlContent where
  | malformed
  | wellFormed (urls : List UrlEntry)
deriving Repr, DecidableEq

/-- What the HTTP GET of the sitemap produced: a transport-level
requests.RequestException, or a response with a status code and body. -/
inductive FetchOutcome where
  | transportError
  | response (status : ℕ) (body : XmlContent)
deriving Repr, DecidableEq

/-- Python str.title(): the first character of each alphabetic run is
uppercased, the rest lowercased. -/
def pyTitleAux : Bool → List Char → List Char
  | _, [] => []
  | prevAlpha, c :: cs =>
    let c' := if c.isAlpha then (if prevAlpha then c.toLower else c.toUpper) else c
    c' :: pyTitleAux c.isAlpha cs

/-- Python str.title() on a whole string. -/
def pyTitle (s : String) : String :=
  String.mk (pyTitleAux false s.data)

/-- Body of the per-`<url>`-element loop in parse_sitemap: skip the
element when its stripped `<loc>` is empty; otherwise strip the title,
publication date and keywords, split the keywords on commas dropping
blank items, and when the title is missing derive it from the url slug
(last path segment, hyphens to spaces, title-cased). -/
def parse_url_element (e : UrlEntry) : Option Article :=
  let loc := e.loc.trim
  if loc = "" then none
  else
    let title0 := e.title.trim
    let pub_date := e.pub_date.trim
    let kstr := e.keywords_str.trim
    let keywords :=
      if kstr = "" then []
      else ((kstr.splitOn ",").map String.trim).filter (fun k => !(k == ""))
    let title :=
      if title0 = "" then
        pyTitle ((((loc.dropRightWhile (fun c => c == '/')).splitOn "/").getLastD "").replace "-" " ")
      else title0
    some { url := loc, title := title, publication_date := pub_date, keywords := keywords }

/-- sitemap_parser.fetch_sitemap: on a requests.RequestException —
including the HTTPError that raise_for_status throws for any status
≥ 400 — log and return None; otherwise return the body.  (The
cache-busting query parameter and headers only shape the request and
have no counterpart in the response model.) -/
def fetch_sitemap (o : FetchOutcome) : Option XmlContent :=
  match o with
  | FetchOutcome.transportError => none
  | FetchOutcome.response status body =>
      if 400 ≤ status then none else some body

/-- sitemap_parser.parse_sitemap: on XMLSyntaxError log and return the
empty article list; otherwise process the `<url>` elements in order. -/
def parse_sitemap : XmlContent → List Article
  | XmlContent.malformed => []
  | XmlContent.wellFormed urls => urls.filterMap parse_url_element

/-- sitemap_parser.fetch_and_parse: None when the fetch failed,
otherwise the parsed article list. -/
def fetch_and_parse (o : FetchOutcome) : Option (List Article) :=
  match fetch_sitemap o with
  | none => none
  | some content => some (parse_sitemap content)

end Sitemap

namespace Webhook

/-- What one requests.post inside _send_webhook came back with: an HTTP
429 whose JSON body supplies retry_after, a success (raise_for_status
passes), or a failure — a transport error or an HTTP error status, both
surfacing as the requests.RequestException the except clause catches. -/
inductive WebhookResp where
  | rateLimited (retry_after : ℕ)
  | ok
  | failed
deriving Repr, DecidableEq

/-- Observable steps of one _send_webhook run: an HTTP POST attempt
(recording the response it got), a time.sleep, and the final
logger.error after exhausting the retries. -/
inductive SendEvent where
  | post (r : WebhookResp)
  | sleep (seconds : ℕ)
  | logFailure
deriving Repr, DecidableEq

/-- discord_webhook.MAX_RETRIES. -/
def MAX_RETRIES : ℕ := 3

/-- discord_webhook.BASE_DELAY. -/
def BASE_DELAY : ℕ := 2

/-- The `for attempt in range(1, MAX_RETRIES + 1)` loop of
_send_webhook.  `attemptIdx` is Python's `attempt`; `remaining` counts
the loop iterations still to run after the current one, so the loop
body runs on `remaining + 1` and falls off the end on `0`.  A 429
sleeps retry_after and continues (consuming the iteration); a success
returns; a RequestException sleeps BASE_DELAY ** attempt when further
iterations remain and otherwise logs the final failure.  The function
returns (events, delivered) and never propagates an exception. -/
def sendLoop (resp : ℕ → WebhookResp) : ℕ → ℕ → List SendEvent × Bool
  | _, 0 => ([], false)
  | attemptIdx, remaining + 1 =>
    match resp attemptIdx with
    | WebhookResp.rateLimited r =>
        let rest := sendLoop resp (attemptIdx + 1) remaining
        (SendEvent.post (WebhookResp.rateLimited r) :: SendEvent.sleep r :: rest.1, rest.2)
    | WebhookResp.ok => ([SendEvent.post WebhookResp.ok], true)
    | WebhookResp.failed =>
        if remaining = 0 then
          ([SendEvent.post WebhookResp.failed, SendEvent.logFailure], false)
        else
          let rest := sendLoop resp (attemptIdx + 1) remaining
          (SendEvent.post WebhookResp.failed ::
             SendEvent.sleep (BASE_DELAY ^ attemptIdx) :: rest.1, rest.2)

/-- discord_webhook._send_webhook: run the attempt loop from attempt 1
with the full retry budget.  `resp` gives the response the external
endpoint returns to the POST of attempt n. -/
def send_webhook (resp : ℕ → WebhookResp) : List SendEvent × Bool :=
  sendLoop resp 1 MAX_RETRIES

/-- Is this event an HTTP POST attempt? -/
def isPost : SendEvent → Bool
  | SendEvent.post _ => true
  | _ => false

/-- Is this event a POST that received a non-rate-limited response? -/
def isNonRateLimitedPost : SendEvent → Bool
  | SendEvent.post (WebhookResp.rateLimited _) => false
  | SendEvent.post _ => true
  | _ => false

end Webhook

namespace Progress

/-- Python int() applied to a rational: truncation toward zero. -/
def pyTrunc (q : ℚ) : ℤ :=
  if 0 ≤ q then ⌊q⌋ else -⌊-q⌋

/-- The local `filled = int(ratio * length)` of make_progress_bar,
with `ratio = min(current / target, 1.0)`. -/
def barFilled (current target : ℤ) (length : ℕ) : ℤ :=
  pyTrunc (min ((current : ℚ) / (target : ℚ)) 1 * (length : ℚ))

/-- The local `percentage = int(ratio * 100)` of make_progress_bar. -/
def barPercentage (current target : ℤ) : ℤ :=
  pyTrunc (min ((current : ℚ) / (target : ℚ)) 1 * 100)

/-- progress.make_progress_bar: for target ≤ 0 a fully empty bar
labelled 0%; otherwise `filled` full glyphs, `length - filled` empty
glyphs and the truncated percentage.  (Python's `"█" * n` is empty for
negative n, matching Int.toNat.) -/
def make_progress_bar (current target : ℤ) (length : ℕ) : String :=
  if target ≤ 0 then
    String.mk (List.replicate length '░') ++ " 0%"
  else
    let filled := barFilled current target length
    let emptyN := (length : ℤ) - filled
    String.mk (List.replicate filled.toNat '█') ++ String.mk (List.replicate emptyN.toNat '░')
      ++ " " ++ toString (barPercentage current target) ++ "%"

/-- progress.calculate_daily_remaining. -/
def calculate_daily_remaining (current target : ℤ) : ℤ :=
  max 0 (target - current)

end Progress

namespace Bot

/-- bot.poll_cycle: fetch and parse the sitemap; on the None failure
signal return -1 with the ledger untouched.  Otherwise walk the entries
in order: skip urls the ledger already knows; for a new url run
streak.update_streak, then db.insert_article, then read the refreshed
counters and send the Discord notification (external reads and a
best-effort delivery — no further ledger mutation), counting the new
article.  Returns the new-article count. -/
def poll_cycle (fetched : Sitemap.FetchOutcome) (article_value : ℚ) (today : ℤ)
    (st : Db.LedgerState) : ℤ × Db.LedgerState :=
  match Sitemap.fetch_and_parse fetched with
  | none => (-1, st)
  | some articles =>
    let step : ℕ × Db.LedgerState → Sitemap.Article → ℕ × Db.LedgerState :=
      fun acc a =>
        if Db.is_known_url acc.2 a.url then acc
        else
          let s := Streak.update_streak acc.2 today
          let st2 := Db.insert_article s.2 a.url a.title none article_value today
          (acc.1 + 1, st2)
    let r := articles.foldl step (0, st)
    ((r.1 : ℤ), r.2)

/-- How one iteration of the main loop ended: poll_cycle returned a
count ≥ 0, poll_cycle returned -1, or an unexpected exception reached
the `except Exception` clause. -/
inductive CycleResult where
  | ok (newCount : ℕ)
  | failed
  | crashed
deriving Repr, DecidableEq

/-- bot.main's `max_failures`. -/
def max_failures : ℕ := 3

/-- The consecutive-failure bookkeeping of one main-loop iteration
(bot.py lines 220-247): a successful cycle resets the counter; a -1
result increments it and, when it reaches max_failures, sends one error
alert and resets it; the `except Exception` clause increments the
counter without any alert check.  Returns the new counter and the
number of alerts dispatched (0 or 1). -/
def scheduler_step (counter : ℕ) : CycleResult → ℕ × ℕ
  | CycleResult.ok _ => (0, 0)
  | CycleResult.failed =>
      if max_failures ≤ counter + 1 then (0, 1) else (counter + 1, 0)
  | CycleResult.crashed => (counter + 1, 0)

/-- Run the main loop over a list of cycle results, returning the final
failure counter and the total number of alerts dispatched. -/
def scheduler_run (counter : ℕ) : List CycleResult → ℕ × ℕ
  | [] => (counter, 0)
  | r :: rest =>
    let s := scheduler_step counter r
    let t := scheduler_run s.1 rest
    (t.1, s.2 + t.2)

end Bot

/-- The consistency invariant relating the two tables: daily_stats has
one row per date, every article's detection date has a row, each row
carries exactly the count and earning sum of the articles detected on
its date, and the month-window sums over daily_stats agree with the
corresponding sums over articles for every window start. -/
structure LedgerInv (st : Db.LedgerState) : Prop where
  nodupDates : (st.daily_stats.map (fun r => r.date)).Nodup
  cover : ∀ a ∈ st.articles, ∃ r ∈ st.daily_stats, r.date = a.detected_date
  rowCount : ∀ r ∈ st.daily_stats, r.article_count = countOn st.articles r.date
  rowEarned : ∀ r ∈ st.daily_stats, r.earned = earnedOn st.articles r.date
  monthCount : ∀ m, Db.sumCountFrom st.daily_stats m = countFrom st.articles m
  monthEarned : ∀ m, Db.sumEarnedFrom st.daily_stats m = earnedFrom st.articles m

theorem countOn_append_single (arts : List Db.ArticleRow) (a : Db.ArticleRow) (d : ℤ) :
    countOn (arts ++ [a]) d = countOn arts d + (if a.detected_date = d then 1 else 0) := by
  by_cases h : a.detected_date = d <;>
    simp [countOn, List.filter_append, List.filter_cons, h]

theorem earnedOn_append_single (arts : List Db.ArticleRow) (a : Db.ArticleRow) (d : ℤ) :
    earnedOn (arts ++ [a]) d = earnedOn arts d + (if a.detected_date = d then a.earning else 0) := by
  by_cases h : a.detected_date = d <;>
    simp [earnedOn, List.filter_append, List.filter_cons, h]

theorem countFrom_append_single (arts : List Db.ArticleRow) (a : Db.ArticleRow) (m : ℤ) :
    countFrom (arts ++ [a]) m = countFrom arts m + (if m ≤ a.detected_date then 1 else 0) := by
  by_cases h : m ≤ a.detected_date <;>
    simp [countFrom, List.filter_append, List.filter_cons, h]

theorem earnedFrom_append_single (arts : List Db.ArticleRow) (a : Db.ArticleRow) (m : ℤ) :
    earnedFrom (arts ++ [a]) m
      = earnedFrom arts m + (if m ≤ a.detected_date then a.earning else 0) := by
  by_cases h : m ≤ a.detected_date <;>
    simp [earnedFrom, List.filter_append, List.filter_cons, h]

theorem sumCountFrom_cons (r : Db.DailyRow) (l : List Db.DailyRow) (m : ℤ) :
    Db.sumCountFrom (r :: l) m
      = (if m ≤ r.date then r.article_count else 0) + Db.sumCountFrom l m := by
  by_cases h : m ≤ r.date <;> simp [Db.sumCountFrom, List.filter_cons, h]

theorem sumEarnedFrom_cons (r : Db.DailyRow) (l : List Db.DailyRow) (m : ℤ) :
    Db.sumEarnedFrom (r :: l) m
      = (if m ≤ r.date then r.earned else 0) + Db.sumEarnedFrom l m := by
  by_cases h : m ≤ r.date <;> simp [Db.sumEarnedFrom, List.filter_cons, h]

theorem sumCountFrom_append_single (l : List Db.DailyRow) (r : Db.DailyRow) (m : ℤ) :
    Db.sumCountFrom (l ++ [r]) m
      = Db.sumCountFrom l m + (if m ≤ r.date then r.article_count else 0) := by
  by_cases h : m ≤ r.date <;>
    simp [Db.sumCountFrom, List.filter_append, List.filter_cons, h]

theorem sumEarnedFrom_append_single (l : List Db.DailyRow) (r : Db.DailyRow) (m : ℤ) :
    Db.sumEarnedFrom (l ++ [r]) m
      = Db.sumEarnedFrom l m + (if m ≤ r.date then r.earned else 0) := by
  by_cases h : m ≤ r.date <;>
    simp [Db.sumEarnedFrom, List.filter_append, List.filter_cons, h]

theorem bump_daily_date (d : ℤ) (e : ℚ) (r : Db.DailyRow) :
    (Db.bump_daily d e r).date = r.date := by
  unfold Db.bump_daily
  split <;> rfl

theorem map_bump_of_no_row (l : List Db.DailyRow) (d : ℤ) (e : ℚ)
    (h : ∀ r ∈ l, r.date ≠ d) : l.map (Db.bump_daily d e) = l := by
  induction l with
  | nil => rfl
  | cons r rest ih =>
    have hr : Db.bump_daily d e r = r := by
      simp [Db.bump_daily, h r (List.mem_cons_self r rest)]
    simp only [List.map_cons, hr]
    rw [ih (fun x hx => h x (List.mem_cons_of_mem _ hx))]

theorem nodup_tail_no_row (r : Db.DailyRow) (rest : List Db.DailyRow) (d : ℤ)
    (hne : r.date ∉ rest.map (fun x => x.date)) (hr : r.date = d) :
    ∀ x ∈ rest, x.date ≠ d := by
  intro x hx hxd
  apply hne
  rw [hr, ← hxd]
  exact List.mem_map_of_mem _ hx

theorem sumCountFrom_map_bump (l : List Db.DailyRow) (d : ℤ) (e : ℚ) (m : ℤ)
    (hnd : (l.map (fun r => r.date)).Nodup)
    (hany : l.any (fun r => r.date == d) = true) :
    Db.sumCountFrom (l.map (Db.bump_daily d e)) m
      = Db.sumCountFrom l m + (if m ≤ d then 1 else 0) := by
  induction l with
  | nil => simp at hany
  | cons r rest ih =>
    simp only [List.map_cons, List.nodup_cons] at hnd
    by_cases hr : r.date = d
    · rw [List.map_cons, map_bump_of_no_row rest d e (nodup_tail_no_row r rest d hnd.1 hr)]
      rw [sumCountFrom_cons, sumCountFrom_cons]
      have hb : Db.bump_daily d e r
          = { r with article_count := r.article_count + 1, earned := r.earned + e } := by
        simp [Db.bump_daily, hr]
      rw [hb]
      by_cases hm : m ≤ d
      · simp only [hr, hm, if_pos]
        omega
      · simp only [hr, hm, if_neg, ite_false]
        omega
    · have hany' : rest.any (fun x => x.date == d) = true := by
        simp only [List.any_cons, Bool.or_eq_true, beq_iff_eq] at hany
        rcases hany with h | h
        · exact absurd h hr
        · simpa using h
      have hb : Db.bump_daily d e r = r := by simp [Db.bump_daily, hr]
      rw [List.map_cons, hb, sumCountFrom_cons, sumCountFrom_cons, ih hnd.2 hany']
      omega

theorem sumEarnedFrom_map_bump (l : List Db.DailyRow) (d : ℤ) (e : ℚ) (m : ℤ)
    (hnd : (l.map (fun r => r.date)).Nodup)
    (hany : l.any (fun r => r.date == d) = true) :
    Db.sumEarnedFrom (l.map (Db.bump_daily d e)) m
      = Db.sumEarnedFrom l m + (if m ≤ d then e else 0) := by
  induction l with
  | nil => simp at hany
  | cons r rest ih =>
    simp only [List.map_cons, List.nodup_cons] at hnd
    by_cases hr : r.date = d
    · rw [List.map_cons, map_bump_of_no_row rest d e (nodup_tail_no_row r rest d hnd.1 hr)]
      rw [sumEarnedFrom_cons, sumEarnedFrom_cons]
      have hb : Db.bump_daily d e r
          = { r with article_count := r.article_count + 1, earned := r.earned + e } := by
        simp [Db.bump_daily, hr]
      rw [hb]
      by_cases hm : m ≤ d
      · simp only [hr, hm, if_pos]
        ring
      · simp only [hr, hm, if_neg, ite_false]
        ring
    · have hany' : rest.any (fun x => x.date == d) = true := by
        simp only [List.any_cons, Bool.or_eq_true, beq_iff_eq] at hany
        rcases hany with h | h
        · exact absurd h hr
        · simpa using h
      have hb : Db.bump_daily d e r = r := by simp [Db.bump_daily, hr]
      rw [List.map_cons, hb, sumEarnedFrom_cons, sumEarnedFrom_cons, ih hnd.2 hany']
      ring

theorem countOn_eq_zero_of_no_row (st : Db.LedgerState) (d : ℤ)
    (hcov : ∀ a ∈ st.articles, ∃ r ∈ st.daily_stats, r.date = a.detected_date)
    (hany : st.daily_stats.any (fun r => r.date == d) = false) :
    countOn st.articles d = 0 ∧ earnedOn st.articles d = 0 := by
  have hfil : st.articles.filter (fun a => a.detected_date == d) = [] := by
    rw [List.filter_eq_nil_iff]
    intro a ha
    simp only [beq_iff_eq]
    intro had
    obtain ⟨r, hrmem, hrd⟩ := hcov a ha
    rw [List.any_eq_false] at hany
    exact hany r hrmem (by simp [hrd, had])
  constructor
  · simp [countOn, hfil]
  · simp [earnedOn, hfil]

theorem ledgerInv_tables_eq (st st' : Db.LedgerState)
    (h1 : st'.articles = st.articles) (h2 : st'.daily_stats = st.daily_stats)
    (inv : LedgerInv st) : LedgerInv st' := by
  constructor
  · rw [h2]; exact inv.nodupDates
  · rw [h1, h2]; exact inv.cover
  · rw [h1, h2]; exact inv.rowCount
  · rw [h1, h2]; exact inv.rowEarned
  · rw [h1, h2]; exact inv.monthCount
  · rw [h1, h2]; exact inv.monthEarned

theorem ledgerInv_init : LedgerInv Db.initState := by
  constructor <;>
    simp [Db.initState, countOn, earnedOn, countFrom, earnedFrom,
      Db.sumCountFrom, Db.sumEarnedFrom]

theorem ledgerInv_insert (st : Db.LedgerState) (u t : String) (p : Option String)
    (e : ℚ) (d : ℤ) (inv : LedgerInv st) (hu : Db.is_known_url st u = false) :
    LedgerInv (Db.insert_article st u t p e d) := by
  have hstate : Db.insert_article st u t p e d
      = { st with
            articles := st.articles ++
              [{ url := u, title := t, published_at := p, detected_date := d, earning := e }],
            daily_stats := Db.upsert_daily st.daily_stats d e } := by
    simp [Db.insert_article, hu]
  rw [hstate]
  cases hAny : st.daily_stats.any (fun r => r.date == d) with
  | false =>
    have hup : Db.upsert_daily st.daily_stats d e
        = st.daily_stats ++ [{ date := d, article_count := 1, earned := e }] := by
      simp [Db.upsert_daily, hAny]
    obtain ⟨hc0, he0⟩ := countOn_eq_zero_of_no_row st d inv.cover hAny
    have hnotin : d ∉ st.daily_stats.map (fun r => r.date) := by
      rw [List.any_eq_false] at hAny
      simp only [List.mem_map, not_exists]
      rintro r ⟨hrmem, hrd⟩
      exact hAny r hrmem (by simp [hrd])
    have hnorow : ∀ r ∈ st.daily_stats, r.date ≠ d := by
      rw [List.any_eq_false] at hAny
      intro r hrmem hrd
      exact hAny r hrmem (by simp [hrd])
    constructor
    · show ((Db.upsert_daily st.daily_stats d e).map (fun r => r.date)).Nodup
      rw [hup, List.map_append]
      simp only [List.map_cons, List.map_nil]
      rw [← List.concat_eq_append]
      exact List.Nodup.concat hnotin inv.nodupDates
    · intro a ha
      rw [List.mem_append] at ha
      rcases ha with ha | ha
      · obtain ⟨r, hrmem, hrd⟩ := inv.cover a ha
        exact ⟨r, by rw [hup]; exact List.mem_append_left _ hrmem, hrd⟩
      · simp only [List.mem_singleton] at ha
        subst ha
        refine ⟨{ date := d, article_count := 1, earned := e }, ?_, rfl⟩
        rw [hup]
        exact List.mem_append_right _ (List.mem_singleton_self _)
    · intro r hr
      show r.article_count = countOn (st.articles ++ [_]) r.date
      rw [countOn_append_single]
      rw [hup, List.mem_append] at hr
      rcases hr with hr | hr
      · rw [if_neg (fun hdd => hnorow r hr (by simpa using hdd.symm))]
        simpa using inv.rowCount r hr
      · simp only [List.mem_singleton] at hr
        subst hr
        simp [hc0]
    · intro r hr
      show r.earned = earnedOn (st.articles ++ [_]) r.date
      rw [earnedOn_append_single]
      rw [hup, List.mem_append] at hr
      rcases hr with hr | hr
      · rw [if_neg (fun hdd => hnorow r hr (by simpa using hdd.symm))]
        simpa using inv.rowEarned r hr
      · simp only [List.mem_singleton] at hr
        subst hr
        simp [he0]
    · intro m
      show Db.sumCountFrom (Db.upsert_daily st.daily_stats d e) m = _
      rw [hup, sumCountFrom_append_single, countFrom_append_single, inv.monthCount m]
    · intro m
      show Db.sumEarnedFrom (Db.upsert_daily st.daily_stats d e) m = _
      rw [hup, sumEarnedFrom_append_single, earnedFrom_append_single, inv.monthEarned m]
  | true =>
    have hup : Db.upsert_daily st.daily_stats d e
        = st.daily_stats.map (Db.bump_daily d e) := by
      simp [Db.upsert_daily, hAny]
    have hdates : (st.daily_stats.map (Db.bump_daily d e)).map (fun r => r.date)
        = st.daily_stats.map (fun r => r.date) := by
      rw [List.map_map]
      exact List.map_congr_left (fun r _ => bump_daily_date d e r)
    constructor
    · show ((Db.upsert_daily st.daily_stats d e).map (fun r => r.date)).Nodup
      rw [hup, hdates]
      exact inv.nodupDates
    · intro a ha
      rw [List.mem_append] at ha
      rcases ha with ha | ha
      · obtain ⟨r, hrmem, hrd⟩ := inv.cover a ha
        refine ⟨Db.bump_daily d e r, ?_, ?_⟩
        · rw [hup]; exact List.mem_map_of_mem _ hrmem
        · rw [bump_daily_date, hrd]
      · simp only [List.mem_singleton] at ha
        subst ha
        rw [List.any_eq_true] at hAny
        obtain ⟨r, hrmem, hrd⟩ := hAny
        simp only [beq_iff_eq] at hrd
        refine ⟨Db.bump_daily d e r, ?_, ?_⟩
        · rw [hup]; exact List.mem_map_of_mem _ hrmem
        · rw [bump_daily_date, hrd]
    · intro r' hr'
      show r'.article_count = countOn (st.articles ++ [_]) r'.date
      rw [hup, List.mem_map] at hr'
      obtain ⟨r, hrmem, hbr⟩ := hr'
      rw [countOn_append_single]
      by_cases hrd : r.date = d
      · have hb : Db.bump_daily d e r
            = { r with article_count := r.article_count + 1, earned := r.earned + e } := by
          simp [Db.bump_daily, hrd]
        rw [← hbr, hb]
        simp only
        rw [if_pos (by simpa using hrd.symm), inv.rowCount r hrmem]
      · have hb : Db.bump_daily d e r = r := by simp [Db.bump_daily, hrd]
        rw [← hbr, hb]
        rw [if_neg (by simpa using fun hdd => hrd hdd.symm), inv.rowCount r hrmem]
        omega
    · intro r' hr'
      show r'.earned = earnedOn (st.articles ++ [_]) r'.date
      rw [hup, List.mem_map] at hr'
      obtain ⟨r, hrmem, hbr⟩ := hr'
      rw [earnedOn_append_single]
      by_cases hrd : r.date = d
      · have hb : Db.bump_daily d e r
            = { r with article_count := r.article_count + 1, earned := r.earned + e } := by
          simp [Db.bump_daily, hrd]
        rw [← hbr, hb]
        simp only
        rw [if_pos (by simpa using hrd.symm), inv.rowEarned r hrmem]
      · have hb : Db.bump_daily d e r = r := by simp [Db.bump_daily, hrd]
        rw [← hbr, hb]
        rw [if_neg (by simpa using fun hdd => hrd hdd.symm), inv.rowEarned r hrmem]
        ring
    · intro m
      show Db.sumCountFrom (Db.upsert_daily st.daily_stats d e) m = _
      rw [hup, sumCountFrom_map_bump _ _ _ _ inv.nodupDates hAny,
        countFrom_append_single, inv.monthCount m]
    · intro m
      show Db.sumEarnedFrom (Db.upsert_daily st.daily_stats d e) m = _
      rw [hup, sumEarnedFrom_map_bump _ _ _ _ inv.nodupDates hAny,
        earnedFrom_append_single, inv.monthEarned m]

theorem ledgerInv_streak (st : Db.LedgerState) (today : ℤ) (inv : LedgerInv st) :
    LedgerInv (Streak.update_streak st today).2 :=
  ledgerInv_tables_eq st _ rfl rfl inv

theorem ledgerInv_applyOps :
    ∀ (ops : List LedgerOp) (st : Db.LedgerState),
      LedgerInv st → guardedOps st ops = true → LedgerInv (applyOps st ops)
  | [], _, inv, _ => inv
  | LedgerOp.insert u t p e d :: rest, st, inv, hg => by
    rw [guardedOps, Bool.and_eq_true, Bool.not_eq_true'] at hg
    have step : applyOps st (LedgerOp.insert u t p e d :: rest)
        = applyOps (applyOp st (LedgerOp.insert u t p e d)) rest := rfl
    rw [step]
    exact ledgerInv_applyOps rest _ (ledgerInv_insert st u t p e d inv hg.1) hg.2
  | LedgerOp.streakUpd d :: rest, st, inv, hg => by
    rw [guardedOps] at hg
    have step : applyOps st (LedgerOp.streakUpd d :: rest)
        = applyOps (applyOp st (LedgerOp.streakUpd d)) rest := rfl
    rw [step]
    exact ledgerInv_applyOps rest _ (ledgerInv_streak st d inv) hg

theorem sendLoop_succ (resp : ℕ → Webhook.WebhookResp) (a k : ℕ) :
    Webhook.sendLoop resp a (k + 1)
      = match resp a with
        | Webhook.WebhookResp.rateLimited r =>
            (Webhook.SendEvent.post (Webhook.WebhookResp.rateLimited r) ::
              Webhook.SendEvent.sleep r :: (Webhook.sendLoop resp (a + 1) k).1,
             (Webhook.sendLoop resp (a + 1) k).2)
        | Webhook.WebhookResp.ok => ([Webhook.SendEvent.post Webhook.WebhookResp.ok], true)
        | Webhook.WebhookResp.failed =>
            if k = 0 then
              ([Webhook.SendEvent.post Webhook.WebhookResp.failed, Webhook.SendEvent.logFailure],
               false)
            else
              (Webhook.SendEvent.post Webhook.WebhookResp.failed ::
                Webhook.SendEvent.sleep (Webhook.BASE_DELAY ^ a) ::
                (Webhook.sendLoop resp (a + 1) k).1,
               (Webhook.sendLoop resp (a + 1) k).2) := rfl

theorem sendLoop_rateLimited (resp : ℕ → Webhook.WebhookResp) (a k r : ℕ)
    (h : resp a = Webhook.WebhookResp.rateLimited r) :
    Webhook.sendLoop resp a (k + 1)
      = (Webhook.SendEvent.post (Webhook.WebhookResp.rateLimited r) ::
          Webhook.SendEvent.sleep r :: (Webhook.sendLoop resp (a + 1) k).1,
         (Webhook.sendLoop resp (a + 1) k).2) := by
  rw [sendLoop_succ, h]

theorem sendLoop_ok (resp : ℕ → Webhook.WebhookResp) (a k : ℕ)
    (h : resp a = Webhook.WebhookResp.ok) :
    Webhook.sendLoop resp a (k + 1) = ([Webhook.SendEvent.post Webhook.WebhookResp.ok], true) := by
  rw [sendLoop_succ, h]

theorem sendLoop_failed_last (resp : ℕ → Webhook.WebhookResp) (a : ℕ)
    (h : resp a = Webhook.WebhookResp.failed) :
    Webhook.sendLoop resp a 1
      = ([Webhook.SendEvent.post Webhook.WebhookResp.failed, Webhook.SendEvent.logFailure],
         false) := by
  show Webhook.sendLoop resp a (0 + 1) = _
  rw [sendLoop_succ, h]
  rfl

theorem sendLoop_failed_mid (resp : ℕ → Webhook.WebhookResp) (a k : ℕ)
    (h : resp a = Webhook.WebhookResp.failed) :
    Webhook.sendLoop resp a (k + 1 + 1)
      = (Webhook.SendEvent.post Webhook.WebhookResp.failed ::
          Webhook.SendEvent.sleep (Webhook.BASE_DELAY ^ a) ::
          (Webhook.sendLoop resp (a + 1) (k + 1)).1,
         (Webhook.sendLoop resp (a + 1) (k + 1)).2) := by
  rw [sendLoop_succ, h]
  simp

theorem sendLoop_posts_le (resp : ℕ → Webhook.WebhookResp) (k : ℕ) :
    ∀ a, ((Webhook.sendLoop resp a k).1.countP Webhook.isPost) ≤ k := by
  induction k with
  | zero =>
    intro a
    simp [Webhook.sendLoop]
  | succ k ih =>
    intro a
    cases hr : resp a with
    | rateLimited r =>
      rw [sendLoop_rateLimited resp a k r hr]
      have := ih (a + 1)
      simp [List.countP_cons, Webhook.isPost]
      omega
    | ok =>
      rw [sendLoop_ok resp a k hr]
      simp [Webhook.isPost]
    | failed =>
      cases k with
      | zero =>
        rw [sendLoop_failed_last resp a hr]
        simp [List.countP_cons, Webhook.isPost]
      | succ k2 =>
        rw [sendLoop_failed_mid resp a k2 hr]
        have := ih (a + 1)
        simp [List.countP_cons, Webhook.isPost]
        omega

/-- Claim C1 (code bug): the claim says db.insert_article is an
idempotent insert-or-ignore that reports inserted=true/false and leaves
aggregates unchanged on a duplicate key.  The code puts ON CONFLICT DO
NOTHING only on the articles insert, returns nothing, and upserts
daily_stats unconditionally: calling it twice with the same url keeps a
single articles row yet counts the day twice.  This theorem evaluates
the model at that failing input: after two inserts of url "u" with
earning 1 on day 0, the articles table is unchanged by the second call
and has one row, while the day-0 aggregate reports 2 articles and 2
earned. -/
theorem c1_insert_article_not_idempotent :
    (Db.insert_article (Db.insert_article Db.initState "u" "t" none 1 0) "u" "t" none 1 0).articles
      = (Db.insert_article Db.initState "u" "t" none 1 0).articles ∧
    (Db.insert_article Db.initState "u" "t" none 1 0).articles.length = 1 ∧
    Db.get_today_count
      (Db.insert_article (Db.insert_article Db.initState "u" "t" none 1 0) "u" "t" none 1 0) 0
      = 2 ∧
    Db.get_today_earned
      (Db.insert_article (Db.insert_article Db.initState "u" "t" none 1 0) "u" "t" none 1 0) 0
      = 2 := by
  refine ⟨rfl, rfl, rfl, ?_⟩
  show (1 : ℚ) + 1 = 2
  norm_num

/-- Claim C2 (counterexample): after the ledger-operation sequence that
inserts the same url twice, the daily_stats row for day 0 records 2
articles while only 1 article record was detected that day, so it is
false that after every sequence of ledger operations each daily
aggregate row equals the per-day count over article records. -/
theorem c2_counterexample :
    rowsConsistent (applyOps Db.initState
      [LedgerOp.insert "u" "t" none 1 0, LedgerOp.insert "u" "t" none 1 0]) = false ∧
    (applyOps Db.initState
      [LedgerOp.insert "u" "t" none 1 0, LedgerOp.insert "u" "t" none 1 0]).daily_stats.map
        (fun r => r.article_count) = [2] ∧
    countOn (applyOps Db.initState
      [LedgerOp.insert "u" "t" none 1 0, LedgerOp.insert "u" "t" none 1 0]).articles 0 = 1 := by
  refine ⟨by decide, by decide, by decide⟩

/-- Claim C2 (amended): after every sequence of ledger operations in
which insert_article is never invoked on an already known url — the
guard poll_cycle enforces through is_known_url — every daily_stats row
equals the count and earning sum of the article records detected on its
date, and the monthly accessors equal the corresponding sums over
article records detected on or after the window start, for every window
start. -/
theorem c2_amended_consistency (ops : List LedgerOp)
    (hg : guardedOps Db.initState ops = true) :
    (∀ r ∈ (applyOps Db.initState ops).daily_stats,
        r.article_count = countOn (applyOps Db.initState ops).articles r.date ∧
        r.earned = earnedOn (applyOps Db.initState ops).articles r.date) ∧
    (∀ m : ℤ,
        Db.get_monthly_count (applyOps Db.initState ops) m
          = countFrom (applyOps Db.initState ops).articles m ∧
        Db.get_monthly_earned (applyOps Db.initState ops) m
          = earnedFrom (applyOps Db.initState ops).articles m) := by
  have inv := ledgerInv_applyOps ops Db.initState ledgerInv_init hg
  exact ⟨fun r hr => ⟨inv.rowCount r hr, inv.rowEarned r hr⟩,
    fun m => ⟨inv.monthCount m, inv.monthEarned m⟩⟩

/-- Claim C2 witness: the amended consistency theorem applied to a
concrete guarded operation sequence. -/
theorem c2_amended_consistency_witness :
    guardedOps Db.initState
      [LedgerOp.insert "a" "t1" none 1 0, LedgerOp.streakUpd 0,
       LedgerOp.insert "b" "t2" none 1 1] = true ∧
    Db.get_monthly_count (applyOps Db.initState
      [LedgerOp.insert "a" "t1" none 1 0, LedgerOp.streakUpd 0,
       LedgerOp.insert "b" "t2" none 1 1]) 0
      = countFrom (applyOps Db.initState
      [LedgerOp.insert "a" "t1" none 1 0, LedgerOp.streakUpd 0,
       LedgerOp.insert "b" "t2" none 1 1]).articles 0 :=
  ⟨by decide, ((c2_amended_consistency _ (by decide)).2 0).1⟩

/-- Claim C3: for stored streak c ≥ 0, streak.update_streak returns 1
when no last publish date is stored; max(c, 1) when it equals today;
c + 1 when the gap is exactly one day; 1 when the gap exceeds one day;
and it writes the returned streak together with today's date back to
the ledger state. -/
theorem c3_update_streak_cases (st : Db.LedgerState) (today : ℤ)
    (hc : 0 ≤ st.current_streak) :
    (st.last_publish_date = none → (Streak.update_streak st today).1 = 1) ∧
    (st.last_publish_date = some today →
        (Streak.update_streak st today).1 = max st.current_streak 1) ∧
    (∀ d, st.last_publish_date = some d → today - d = 1 →
        (Streak.update_streak st today).1 = st.current_streak + 1) ∧
    (∀ d, st.last_publish_date = some d → 1 < today - d →
        (Streak.update_streak st today).1 = 1) ∧
    (Streak.update_streak st today).2
      = { st with current_streak := (Streak.update_streak st today).1,
                  last_publish_date := some today } := by
  simp only [Streak.update_streak, Db.get_streak, Db.update_streak]
  refine ⟨?_, ?_, ?_, ?_, trivial⟩
  · intro h
    rw [h]
  · intro h
    simp only [h, sub_self, if_pos, eq_self_iff_true, if_true]
    split <;> omega
  · intro d h h1
    simp only [h]
    rw [if_neg (by omega : ¬(today - d = 0)), if_pos h1]
  · intro d h h1
    simp only [h]
    rw [if_neg (by omega : ¬(today - d = 0)), if_neg (by omega : ¬(today - d = 1))]

/-- Claim C3 witness: with stored streak 5 and last publish date
yesterday (day 9, today being day 10), update_streak returns 6. -/
theorem c3_update_streak_cases_witness :
    (0 : ℤ) ≤ (Db.LedgerState.mk [] [] 5 (some 9)).current_streak ∧
    (Streak.update_streak (Db.LedgerState.mk [] [] 5 (some 9)) 10).1 = 6 :=
  ⟨by decide,
   by
    have h := (c3_update_streak_cases
      (Db.LedgerState.mk [] [] 5 (some 9)) 10 (by decide)).2.2.1 9 rfl (by decide)
    exact h.trans (by decide)⟩

/-- Claim C4 (counterexample): a rate-limited attempt does consume the
fixed attempt budget.  With a 429 on the first attempt and transport
failures afterwards, _send_webhook makes 3 POSTs in total of which only
2 receive a non-rate-limited response, and ends undelivered — not the 3
non-rate-limited attempts the claim says remain available after any
number of 429 responses. -/
theorem c4_counterexample :
    ((Webhook.send_webhook (fun a =>
        if a = 1 then Webhook.WebhookResp.rateLimited 2
        else Webhook.WebhookResp.failed)).1.countP Webhook.isPost = 3) ∧
    ((Webhook.send_webhook (fun a =>
        if a = 1 then Webhook.WebhookResp.rateLimited 2
        else Webhook.WebhookResp.failed)).1.countP Webhook.isNonRateLimitedPost = 2) ∧
    ¬ ((Webhook.send_webhook (fun a =>
        if a = 1 then Webhook.WebhookResp.rateLimited 2
        else Webhook.WebhookResp.failed)).1.countP Webhook.isNonRateLimitedPost = 3) ∧
    (Webhook.send_webhook (fun a =>
        if a = 1 then Webhook.WebhookResp.rateLimited 2
        else Webhook.WebhookResp.failed)).2 = false := by
  refine ⟨by decide, by decide, by decide, by decide⟩

/-- Claim C4 (amended): an HTTP 429 on the first attempt makes
_send_webhook sleep for the server-supplied retry_after and retry, but
the retry consumes the attempt budget: the run continues with only the
remaining two loop iterations, and no execution ever makes more than
MAX_RETRIES = 3 POST attempts, rate-limited ones included. -/
theorem c4_amended_rate_limit (resp : ℕ → Webhook.WebhookResp) (ra : ℕ)
    (h : resp 1 = Webhook.WebhookResp.rateLimited ra) :
    Webhook.send_webhook resp
      = (Webhook.SendEvent.post (Webhook.WebhookResp.rateLimited ra) ::
          Webhook.SendEvent.sleep ra :: (Webhook.sendLoop resp 2 2).1,
         (Webhook.sendLoop resp 2 2).2) ∧
    (∀ g : ℕ → Webhook.WebhookResp,
        ((Webhook.send_webhook g).1.countP Webhook.isPost) ≤ Webhook.MAX_RETRIES) := by
  constructor
  · show Webhook.sendLoop resp 1 (2 + 1) = _
    rw [sendLoop_rateLimited resp 1 2 ra h]
  · intro g
    exact sendLoop_posts_le g Webhook.MAX_RETRIES 1

/-- Claim C4 witness: the amended theorem applied to an endpoint that
rate-limits every attempt with retry_after = 2. -/
theorem c4_amended_rate_limit_witness :
    Webhook.send_webhook (fun _ => Webhook.WebhookResp.rateLimited 2)
      = (Webhook.SendEvent.post (Webhook.WebhookResp.rateLimited 2) ::
          Webhook.SendEvent.sleep 2 ::
          (Webhook.sendLoop (fun _ => Webhook.WebhookResp.rateLimited 2) 2 2).1,
         (Webhook.sendLoop (fun _ => Webhook.WebhookResp.rateLimited 2) 2 2).2) :=
  (c4_amended_rate_limit (fun _ => Webhook.WebhookResp.rateLimited 2) 2 rfl).1

/-- Claim C5 (counterexample): on malformed XML, parse_sitemap returns
the empty article list, so fetch_and_parse reports a successful empty
batch (some []) rather than the None failure signal, and poll_cycle
returns 0 — a successful cycle — instead of -1. -/
theorem c5_counterexample :
    Sitemap.parse_sitemap Sitemap.XmlContent.malformed = ([] : List Sitemap.Article) ∧
    Sitemap.fetch_and_parse (Sitemap.FetchOutcome.response 200 Sitemap.XmlContent.malformed)
      = some [] ∧
    Sitemap.fetch_and_parse (Sitemap.FetchOutcome.response 200 Sitemap.XmlContent.malformed)
      ≠ none ∧
    Bot.poll_cycle (Sitemap.FetchOutcome.response 200 Sitemap.XmlContent.malformed) 1 0
      Db.initState = (0, Db.initState) ∧
    (Bot.poll_cycle (Sitemap.FetchOutcome.response 200 Sitemap.XmlContent.malformed) 1 0
      Db.initState).1 ≠ -1 := by
  refine ⟨rfl, rfl, by decide, rfl, by decide⟩

/-- Claim C5 (amended): on malformed or unparseable XML the fetch
pipeline does not produce the failure signal: parse_sitemap logs and
returns an empty list, fetch_and_parse returns a successful empty batch
for any non-error HTTP status, and poll_cycle treats the cycle as a
success with zero new articles, leaving the ledger unchanged.  Only a
transport failure or HTTP error status yields the None failure
signal. -/
theorem c5_amended_malformed_feed (v : ℚ) (d : ℤ) (st : Db.LedgerState) (status : ℕ)
    (hstatus : status < 400) :
    Sitemap.parse_sitemap Sitemap.XmlContent.malformed = [] ∧
    Sitemap.fetch_and_parse (Sitemap.FetchOutcome.response status Sitemap.XmlContent.malformed)
      = some [] ∧
    Bot.poll_cycle (Sitemap.FetchOutcome.response status Sitemap.XmlContent.malformed) v d st
      = (0, st) ∧
    Sitemap.fetch_and_parse Sitemap.FetchOutcome.transportError = none := by
  have hfs : Sitemap.fetch_sitemap
      (Sitemap.FetchOutcome.response status Sitemap.XmlContent.malformed)
      = some Sitemap.XmlContent.malformed := by
    simp [Sitemap.fetch_sitemap, Nat.not_le.mpr hstatus]
  refine ⟨rfl, ?_, ?_, rfl⟩
  · simp [Sitemap.fetch_and_parse, hfs, Sitemap.parse_sitemap]
  · simp [Bot.poll_cycle, Sitemap.fetch_and_parse, hfs, Sitemap.parse_sitemap]

/-- Claim C5 witness: the amended theorem applied to a 200 response
with a malformed body from the initial ledger state. -/
theorem c5_amended_malformed_feed_witness :
    (200 : ℕ) < 400 ∧
    Bot.poll_cycle (Sitemap.FetchOutcome.response 200 Sitemap.XmlContent.malformed) 1 0
      Db.initState = (0, Db.initState) :=
  ⟨by decide, (c5_amended_malformed_feed 1 0 Db.initState 200 (by decide)).2.2.1⟩

/-- Claim C10: when the stored last publish date differs from today by
anything other than exactly 0 or exactly 1 day — including a stored
date strictly after today — streak.update_streak takes the reset
branch: it returns 1 and overwrites the stored state with streak 1 and
today's date. -/
theorem c10_streak_reset_other_gaps (st : Db.LedgerState) (today d : ℤ)
    (hlast : st.last_publish_date = some d) (h0 : today - d ≠ 0) (h1 : today - d ≠ 1) :
    Streak.update_streak st today
      = (1, { st with current_streak := 1, last_publish_date := some today }) := by
  simp only [Streak.update_streak, Db.get_streak, Db.update_streak, hlast]
  rw [if_neg h0, if_neg h1]

/-- Claim C10 witness: stored date day 5 with today day 3 (a gap of -2
days, the stored date after today) resets the streak to 1 and stores
today. -/
theorem c10_streak_reset_other_gaps_witness :
    Streak.update_streak (Db.LedgerState.mk [] [] 4 (some 5)) 3
      = (1, Db.LedgerState.mk [] [] 1 (some 3)) := by
  have h := c10_streak_reset_other_gaps (Db.LedgerState.mk [] [] 4 (some 5)) 3 5
    rfl (by decide) (by decide)
  exact h

theorem pyTrunc_eval (q : ℚ) (z : ℤ) (h0 : 0 ≤ q) (h1 : (z : ℚ) ≤ q) (h2 : q < (z : ℚ) + 1) :
    Progress.pyTrunc q = z := by
  unfold Progress.pyTrunc
  rw [if_pos h0]
  exact Int.floor_eq_iff.mpr ⟨h1, by exact_mod_cast h2⟩

theorem barFilled_eval (c t : ℤ) (L : ℕ) (z : ℤ)
    (hle : (c : ℚ) / (t : ℚ) ≤ 1) (h0 : 0 ≤ (c : ℚ) / (t : ℚ))
    (h1 : (z : ℚ) ≤ (c : ℚ) / (t : ℚ) * (L : ℚ))
    (h2 : (c : ℚ) / (t : ℚ) * (L : ℚ) < (z : ℚ) + 1) :
    Progress.barFilled c t L = z := by
  unfold Progress.barFilled
  rw [min_eq_left hle]
  exact pyTrunc_eval _ z (mul_nonneg h0 (Nat.cast_nonneg L)) h1 h2

theorem barPercentage_eval (c t : ℤ) (z : ℤ)
    (hle : (c : ℚ) / (t : ℚ) ≤ 1) (h0 : 0 ≤ (c : ℚ) / (t : ℚ))
    (h1 : (z : ℚ) ≤ (c : ℚ) / (t : ℚ) * 100)
    (h2 : (c : ℚ) / (t : ℚ) * 100 < (z : ℚ) + 1) :
    Progress.barPercentage c t = z := by
  unfold Progress.barPercentage
  rw [min_eq_left hle]
  exact pyTrunc_eval _ z (mul_nonneg h0 (by norm_num)) h1 h2

/-- Claim C6 (counterexample): make_progress_bar truncates rather than
rounds the filled-glyph count.  At current = 7, target = 8, width = 10
the rendered bar has 8 filled glyphs, while the claimed formula
round(min(current/target, 1.0) × width) gives 9. -/
theorem c6_counterexample :
    (Progress.make_progress_bar 7 8 10).data.count '█' = 8 ∧
    round (min ((7 : ℚ) / 8) 1 * 10) = 9 ∧
    ((Progress.make_progress_bar 7 8 10).data.count '█' : ℤ)
      ≠ round (min ((7 : ℚ) / 8) 1 * 10) := by
  have hf : Progress.barFilled 7 8 10 = 8 :=
    barFilled_eval 7 8 10 8 (by norm_num) (by norm_num) (by norm_num) (by norm_num)
  have hp : Progress.barPercentage 7 8 = 87 :=
    barPercentage_eval 7 8 87 (by norm_num) (by norm_num) (by norm_num) (by norm_num)
  have hround : round (min ((7 : ℚ) / 8) 1 * 10) = 9 := by
    rw [min_eq_left (by norm_num : (7 : ℚ) / 8 ≤ 1), round_eq]
    exact Int.floor_eq_iff.mpr ⟨by norm_num, by norm_num⟩
  have hcount : (Progress.make_progress_bar 7 8 10).data.count '█' = 8 := by
    simp only [Progress.make_progress_bar]
    rw [if_neg (by decide : ¬(8 : ℤ) ≤ 0), hf, hp]
    decide
  refine ⟨hcount, hround, ?_⟩
  rw [hcount, hround]
  decide

/-- Claim C6 (amended): for target > 0 and current ≥ 0 the filled-glyph
count of make_progress_bar is the truncation
floor(min(current/target, 1.0) × width), not its rounding; the claim's
concrete examples hold — render(5, 8, 10) gives 6 filled and 4 empty
glyphs labelled 62% and render(8, 8, 10) gives 10 filled at 100% — and
target ≤ 0 renders a fully empty bar labelled 0%. -/
theorem c6_amended_progress_bar (current target : ℤ) (L : ℕ)
    (ht : 0 < target) (hc : 0 ≤ current) :
    Progress.barFilled current target L
      = ⌊min ((current : ℚ) / (target : ℚ)) 1 * (L : ℚ)⌋ ∧
    Progress.make_progress_bar 5 8 10 = "██████░░░░ 62%" ∧
    (Progress.make_progress_bar 5 8 10).data.count '█' = 6 ∧
    (Progress.make_progress_bar 5 8 10).data.count '░' = 4 ∧
    Progress.make_progress_bar 8 8 10 = "██████████ 100%" ∧
    (∀ c t : ℤ, t ≤ 0 → Progress.make_progress_bar c t 10 = "░░░░░░░░░░ 0%") := by
  have hdiv0 : 0 ≤ (current : ℚ) / (target : ℚ) :=
    div_nonneg (by exact_mod_cast hc) (by exact_mod_cast ht.le)
  have hbar5 : Progress.make_progress_bar 5 8 10 = "██████░░░░ 62%" := by
    have hf : Progress.barFilled 5 8 10 = 6 :=
      barFilled_eval 5 8 10 6 (by norm_num) (by norm_num) (by norm_num) (by norm_num)
    have hp : Progress.barPercentage 5 8 = 62 :=
      barPercentage_eval 5 8 62 (by norm_num) (by norm_num) (by norm_num) (by norm_num)
    simp only [Progress.make_progress_bar]
    rw [if_neg (by decide : ¬(8 : ℤ) ≤ 0), hf, hp]
    decide
  have hbar8 : Progress.make_progress_bar 8 8 10 = "██████████ 100%" := by
    have hf : Progress.barFilled 8 8 10 = 10 :=
      barFilled_eval 8 8 10 10 (by norm_num) (by norm_num) (by norm_num) (by norm_num)
    have hp : Progress.barPercentage 8 8 = 100 :=
      barPercentage_eval 8 8 100 (by norm_num) (by norm_num) (by norm_num) (by norm_num)
    simp only [Progress.make_progress_bar]
    rw [if_neg (by decide : ¬(8 : ℤ) ≤ 0), hf, hp]
    decide
  refine ⟨?_, hbar5, by rw [hbar5]; decide, by rw [hbar5]; decide, hbar8, ?_⟩
  · unfold Progress.barFilled Progress.pyTrunc
    rw [if_pos]
    exact mul_nonneg (le_min hdiv0 zero_le_one) (Nat.cast_nonneg L)
  · intro c t htle
    simp only [Progress.make_progress_bar]
    rw [if_pos htle]
    rfl

/-- Claim C6 witness: the amended theorem applied at current = 5,
target = 8, width = 10. -/
theorem c6_amended_progress_bar_witness :
    Progress.barFilled 5 8 10 = ⌊min ((5 : ℚ) / (8 : ℚ)) 1 * (10 : ℚ)⌋ :=
  (c6_amended_progress_bar 5 8 10 (by decide) (by decide)).1

theorem scheduler_no_failed_no_alert :
    ∀ (outs : List Bot.CycleResult) (c : ℕ),
      (∀ o ∈ outs, o ≠ Bot.CycleResult.failed) → (Bot.scheduler_run c outs).2 = 0 := by
  intro outs
  induction outs with
  | nil =>
    intro c _
    rfl
  | cons o rest ih =>
    intro c h
    have hrest := fun x hx => h x (List.mem_cons_of_mem _ hx)
    have ho := h o (List.mem_cons_self o rest)
    cases o with
    | ok n => simp [Bot.scheduler_run, Bot.scheduler_step, ih _ hrest]
    | failed => exact absurd rfl ho
    | crashed => simp [Bot.scheduler_run, Bot.scheduler_step, ih _ hrest]

/-- Claim C7 (counterexample): a cycle that fails with an unexpected
exception increments the consecutive-failure counter without any
threshold check, so a run of failed, failed, exception brings the
counter to the threshold 3 while dispatching no alert and not
resetting — contrary to the claim that reaching the threshold always
dispatches exactly one alert and resets the counter, whatever the kind
of the failed cycle. -/
theorem c7_counterexample :
    Bot.scheduler_run 0
      [Bot.CycleResult.failed, Bot.CycleResult.failed, Bot.CycleResult.crashed] = (3, 0) ∧
    Bot.scheduler_step 2 Bot.CycleResult.crashed = (3, 0) ∧
    Bot.max_failures = 3 := by
  refine ⟨rfl, rfl, rfl⟩

/-- Claim C7 (amended): the scheduler dispatches the alert exactly when
a cycle returning the -1 failure signal raises the counter to the
threshold (then resets the counter to 0); a successful cycle resets the
counter without an alert; a cycle failing with an unexpected exception
increments the counter but never itself dispatches an alert, so runs
without a failure-signal cycle dispatch no alert at all.  Three
consecutive failure-signal cycles dispatch exactly one alert, and after
the following success two further failures do not re-alert. -/
theorem c7_amended_alert_discipline :
    (∀ c n, Bot.scheduler_step c (Bot.CycleResult.ok n) = (0, 0)) ∧
    (∀ c, Bot.max_failures ≤ c + 1 →
        Bot.scheduler_step c Bot.CycleResult.failed = (0, 1)) ∧
    (∀ c, c + 1 < Bot.max_failures →
        Bot.scheduler_step c Bot.CycleResult.failed = (c + 1, 0)) ∧
    (∀ c, Bot.scheduler_step c Bot.CycleResult.crashed = (c + 1, 0)) ∧
    (∀ outs c, (∀ o ∈ outs, o ≠ Bot.CycleResult.failed) →
        (Bot.scheduler_run c outs).2 = 0) ∧
    Bot.scheduler_run 0
      [Bot.CycleResult.failed, Bot.CycleResult.failed, Bot.CycleResult.failed] = (0, 1) ∧
    Bot.scheduler_run 0
      [Bot.CycleResult.failed, Bot.CycleResult.failed, Bot.CycleResult.failed,
       Bot.CycleResult.ok 2, Bot.CycleResult.failed, Bot.CycleResult.failed] = (2, 1) := by
  refine ⟨fun c n => rfl, ?_, ?_, fun c => rfl, scheduler_no_failed_no_alert, rfl, rfl⟩
  · intro c h
    simp [Bot.scheduler_step, h]
  · intro c h
    have hne : ¬ Bot.max_failures ≤ c + 1 := by
      simpa using Nat.not_le.mpr h
    simp [Bot.scheduler_step, hne]

/-- Claim C7 witness: a third consecutive failure-signal cycle
dispatches the alert and resets the counter. -/
theorem c7_amended_alert_discipline_witness :
    Bot.scheduler_step 2 Bot.CycleResult.failed = (0, 1) :=
  (c7_amended_alert_discipline.2.1) 2 (by decide)

/-- Claim C8: when every attempt fails with a transport error or HTTP
error status (a requests.RequestException), _send_webhook makes exactly
MAX_RETRIES = 3 POST attempts, sleeps the exponentially growing
BASE_DELAY ** attempt (2, then 4) between failed attempts, then logs
the final failure and returns — an outcome value, not an exception —
and no execution of _send_webhook ever makes more than 3 POST
attempts. -/
theorem c8_webhook_retry_policy (resp : ℕ → Webhook.WebhookResp)
    (h : ∀ a, resp a = Webhook.WebhookResp.failed) :
    Webhook.send_webhook resp
      = ([Webhook.SendEvent.post Webhook.WebhookResp.failed,
          Webhook.SendEvent.sleep (Webhook.BASE_DELAY ^ 1),
          Webhook.SendEvent.post Webhook.WebhookResp.failed,
          Webhook.SendEvent.sleep (Webhook.BASE_DELAY ^ 2),
          Webhook.SendEvent.post Webhook.WebhookResp.failed,
          Webhook.SendEvent.logFailure], false) ∧
    (∀ g : ℕ → Webhook.WebhookResp,
        ((Webhook.send_webhook g).1.countP Webhook.isPost) ≤ Webhook.MAX_RETRIES) := by
  constructor
  · have hresp : resp = fun _ => Webhook.WebhookResp.failed := funext h
    subst hresp
    rfl
  · intro g
    exact sendLoop_posts_le g Webhook.MAX_RETRIES 1

/-- Claim C8 witness: the retry policy applied to an endpoint that
fails every attempt. -/
theorem c8_webhook_retry_policy_witness :
    Webhook.send_webhook (fun _ => Webhook.WebhookResp.failed)
      = ([Webhook.SendEvent.post Webhook.WebhookResp.failed,
          Webhook.SendEvent.sleep (Webhook.BASE_DELAY ^ 1),
          Webhook.SendEvent.post Webhook.WebhookResp.failed,
          Webhook.SendEvent.sleep (Webhook.BASE_DELAY ^ 2),
          Webhook.SendEvent.post Webhook.WebhookResp.failed,
          Webhook.SendEvent.logFailure], false) :=
  (c8_webhook_retry_policy (fun _ => Webhook.WebhookResp.failed) (fun _ => rfl)).1

/-- Claim C9: when the sitemap fetch fails — a transport error, or any
HTTP error status such as 500 (raise_for_status turns it into the
RequestException that fetch_sitemap catches) — poll_cycle returns the
-1 failure signal with the ledger state exactly as it was: articles,
daily_stats and streak state untouched. -/
theorem c9_fetch_error_frame (v : ℚ) (d : ℤ) (st : Db.LedgerState)
    (status : ℕ) (body : Sitemap.XmlContent) (hstatus : 400 ≤ status) :
    Bot.poll_cycle (Sitemap.FetchOutcome.response status body) v d st = (-1, st) ∧
    Bot.poll_cycle Sitemap.FetchOutcome.transportError v d st = (-1, st) := by
  constructor
  · simp [Bot.poll_cycle, Sitemap.fetch_and_parse, Sitemap.fetch_sitemap, hstatus]
  · rfl

/-- Claim C9 witness: an HTTP 500 response leaves the initial ledger
untouched and yields the failure signal. -/
theorem c9_fetch_error_frame_witness :
    (400 : ℕ) ≤ 500 ∧
    Bot.poll_cycle (Sitemap.FetchOutcome.response 500 (Sitemap.XmlContent.wellFormed [])) 1 0
      Db.initState = (-1, Db.initState) :=
  ⟨by decide,
   (c9_fetch_error_frame 1 0 Db.initState 500 (Sitemap.XmlContent.wellFormed [])
      (by decide)).1⟩
